import Mathlib

/-!
Verification development for the CV parsing pipeline of `CVProcessor.tsx`
(the hardened variant: `extractTextFromPDF`, `extractDataFromText`,
`processFiles`).  The JavaScript regular-expression cascades are embedded
through a small backtracking matcher with ECMAScript semantics (leftmost
match, left-first alternation, greedy/lazy quantifier priority, positive
lookahead, flags i/m/s, and `String.match` with the g flag returning the
list of whole-match strings).  Machine text is modelled as Lean `String`
(lists of characters); all functions are executable.
-/

namespace CVParse

/-! ## Character sets (ECMAScript classes) -/

/-- The characters matched by the ECMAScript class `\s` (WhiteSpace and
LineTerminator code points). -/
def jsSpaceChars : List Char :=
  [' ', '\t', '\n', '\r', '\x0b', '\x0c', ' ', ' ',
   ' ', ' ', ' ', ' ', ' ', ' ', ' ',
   ' ', ' ', ' ', ' ', ' ', ' ', ' ',
   ' ', '　', '﻿']

def isJsSpace (c : Char) : Bool := jsSpaceChars.contains c

/-- ECMAScript LineTerminator characters (used by `^`/`$` with the m flag
and by the dot without the s flag). -/
def lineTerm (c : Char) : Bool :=
  c == '\n' || c == '\r' || c == ' ' || c == ' '

def isDigit10 (c : Char) : Bool := '0' ≤ c && c ≤ '9'

/-! ## Regex abstract syntax

Each constructor mirrors one ECMAScript construct.  `rep r lo hi lz`
covers `*`, `+`, `?`, `{n}`, `{n,}` and `{n,m}`, with `lz = true` for the
lazy variants.  `grp n r` is the capturing group number `n`; `look r` is
the positive lookahead `(?=r)`.  `bol`/`eol` are `^`/`$`. -/

inductive CItem where
  | lit (c : Char)
  | rng (lo hi : Char)
deriving DecidableEq

inductive RE where
  | eps
  | cls (neg : Bool) (items : List CItem)
  | dot
  | cat (r1 r2 : RE)
  | alt (r1 r2 : RE)
  | rep (r : RE) (lo : Nat) (hi : Option Nat) (lz : Bool)
  | grp (n : Nat) (r : RE)
  | look (r : RE)
  | bol
  | eol
deriving DecidableEq

/-- Regex flags: `ci` = i (ignore case), `ml` = m (multiline anchors),
`dotAll` = s.  The g flag is handled by `jsMatchAll`. -/
structure RFlags where
  ci : Bool := false
  ml : Bool := false
  dotAll : Bool := false
deriving DecidableEq

/-- Case-insensitive matching of one class item, folding ASCII case the
way ECMAScript canonicalisation does for these patterns. -/
def citemMatch (ci : Bool) (it : CItem) (c : Char) : Bool :=
  match it with
  | .lit l => c == l || (ci && (c.toLower == l.toLower))
  | .rng lo hi =>
      (lo ≤ c && c ≤ hi) ||
      (ci && ((lo ≤ c.toLower && c.toLower ≤ hi) || (lo ≤ c.toUpper && c.toUpper ≤ hi)))

/-! ## The backtracking matcher

`matchM` explores alternatives in ECMAScript priority order through a
continuation; the first success is the match.  `fuel` only bounds the
recursion depth; `fuelFor` is generous enough for every concrete run in
this file. -/

/-- Recorded captures: (group number, start, end); the most recent write
to a group is listed first. -/
abbrev Caps := List (Nat × Nat × Nat)

abbrev MRes := Option (Nat × Caps)

def matchM (fl : RFlags) (s : List Char) :
    Nat → RE → Nat → Caps → (Nat → Caps → MRes) → MRes
  | 0, _, _, _, _ => none
  | fuel + 1, re, pos, cp, k =>
    match re with
    | .eps => k pos cp
    | .cls neg items =>
      match s.get? pos with
      | some c => if (items.any (fun it => citemMatch fl.ci it c)) != neg
                  then k (pos + 1) cp else none
      | none => none
    | .dot =>
      match s.get? pos with
      | some c => if fl.dotAll || !(lineTerm c) then k (pos + 1) cp else none
      | none => none
    | .cat r1 r2 =>
      matchM fl s fuel r1 pos cp (fun p2 cp2 => matchM fl s fuel r2 p2 cp2 k)
    | .alt r1 r2 =>
      match matchM fl s fuel r1 pos cp k with
      | some res => some res
      | none => matchM fl s fuel r2 pos cp k
    | .rep r lo hi lz =>
      match lo with
      | lo' + 1 =>
        matchM fl s fuel r pos cp (fun p2 cp2 =>
          matchM fl s fuel (.rep r lo' (hi.map (fun h => h - 1)) lz) p2 cp2 k)
      | 0 =>
        match hi with
        | some 0 => k pos cp
        | _ =>
          if lz then
            match k pos cp with
            | some res => some res
            | none =>
              matchM fl s fuel r pos cp (fun p2 cp2 =>
                if p2 == pos then none
                else matchM fl s fuel (.rep r 0 (hi.map (fun h => h - 1)) lz) p2 cp2 k)
          else
            match matchM fl s fuel r pos cp (fun p2 cp2 =>
                if p2 == pos then none
                else matchM fl s fuel (.rep r 0 (hi.map (fun h => h - 1)) lz) p2 cp2 k) with
            | some res => some res
            | none => k pos cp
    | .grp n r =>
      matchM fl s fuel r pos cp (fun p2 cp2 => k p2 ((n, pos, p2) :: cp2))
    | .look r =>
      match matchM fl s fuel r pos cp (fun p2 cp2 => some (p2, cp2)) with
      | some (_, cp2) => k pos cp2
      | none => none
    | .bol =>
      if pos == 0 then k pos cp
      else if fl.ml then
        match s.get? (pos - 1) with
        | some c => if lineTerm c then k pos cp else none
        | none => none
      else none
    | .eol =>
      if pos == s.length then k pos cp
      else if fl.ml then
        match s.get? pos with
        | some c => if lineTerm c then k pos cp else none
        | none => none
      else none

/-- A size measure used to pick a sufficient fuel for concrete runs. -/
def reSize : RE → Nat
  | .eps => 1
  | .cls _ _ => 1
  | .dot => 1
  | .cat r1 r2 => reSize r1 + reSize r2 + 1
  | .alt r1 r2 => reSize r1 + reSize r2 + 1
  | .rep r lo _ _ => (reSize r + 2) * (lo + 2)
  | .grp _ r => reSize r + 1
  | .look r => reSize r + 1
  | .bol => 1
  | .eol => 1

def fuelFor (re : RE) (s : List Char) : Nat :=
  (s.length + 2) * (reSize re + 8) + 1000

/-- Try to match `re` starting exactly at `start`. -/
def matchAt (fl : RFlags) (re : RE) (s : List Char) (start : Nat) : MRes :=
  matchM fl s (fuelFor re s) re start [] (fun p cp => some (p, cp))

/-- Leftmost search: first start position (scanning left to right) at
which the whole pattern matches, as ECMAScript `RegExpExec` does. -/
def findFromAux (fl : RFlags) (re : RE) (s : List Char) :
    Nat → Nat → Option (Nat × Nat × Caps)
  | 0, _ => none
  | fuel + 1, start =>
    if start > s.length then none
    else
      match matchAt fl re s start with
      | some (e, cp) => some (start, e, cp)
      | none => findFromAux fl re s fuel (start + 1)

def findFrom (fl : RFlags) (re : RE) (s : List Char) (start : Nat) :
    Option (Nat × Nat × Caps) :=
  findFromAux fl re s (s.length + 2) start

/-- Substring of `t` from index `a` (inclusive) to `b` (exclusive). -/
def strSub (t : String) (a b : Nat) : String :=
  ⟨(t.data.drop a).take (b - a)⟩

def capLookup (cp : Caps) (n : Nat) : Option (Nat × Nat) :=
  (cp.find? (fun e => e.1 == n)).map (fun e => e.2)

/-- `text.match(re)` without the g flag, returning the whole match
(`match[0]`) and the capture of group 1 (`match[1]`). -/
def jsMatch1 (fl : RFlags) (re : RE) (t : String) : Option (String × Option String) :=
  match findFrom fl re t.data 0 with
  | some (st, en, cp) =>
      some (strSub t st en, (capLookup cp 1).map (fun ab => strSub t ab.1 ab.2))
  | none => none

/-- `text.match(re)` with the g flag: the list of whole-match strings
(`none` when there is no match, as JS returns null). -/
def jsMatchAllAux (fl : RFlags) (re : RE) (t : String) :
    Nat → Nat → List String → List String
  | 0, _, acc => acc.reverse
  | fuel + 1, start, acc =>
    match findFrom fl re t.data start with
    | some (st, en, _) =>
        jsMatchAllAux fl re t fuel (if en == st then en + 1 else en) (strSub t st en :: acc)
    | none => acc.reverse

def jsMatchAll (fl : RFlags) (re : RE) (t : String) : Option (List String) :=
  match jsMatchAllAux fl re t (t.data.length + 2) 0 [] with
  | [] => none
  | ms => some ms

/-! ## JavaScript string helpers -/

/-- `String.prototype.trim`: strip leading and trailing `\s` characters. -/
def jsTrim (t : String) : String :=
  ⟨((t.data.dropWhile isJsSpace).reverse.dropWhile isJsSpace).reverse⟩

/-- `replace(/\s+/g, ' ')`: collapse each run of whitespace to one space. -/
def collapseWSAux : Nat → List Char → List Char
  | 0, _ => []
  | _, [] => []
  | fuel + 1, c :: rest =>
    if isJsSpace c then
      ' ' :: collapseWSAux fuel (rest.dropWhile isJsSpace)
    else c :: collapseWSAux fuel rest

def collapseWS (t : String) : String := ⟨collapseWSAux (t.data.length + 1) t.data⟩

/-- `split(/[cs]/)` for a single-character class: split at every
occurrence of one of `cs`, keeping empty fragments (JS behaviour). -/
def splitCharSetAux (cs : List Char) : List Char → List Char → List String
  | [], acc => [⟨acc.reverse⟩]
  | c :: rest, acc =>
    if cs.contains c then ⟨acc.reverse⟩ :: splitCharSetAux cs rest []
    else splitCharSetAux cs rest (c :: acc)

def splitCharSet (cs : List Char) (t : String) : List String :=
  splitCharSetAux cs t.data []

/-- `replace(/[cs]/g, '')` for a single-character class. -/
def removeChars (cs : List Char) (t : String) : String :=
  ⟨t.data.filter (fun c => !(cs.contains c))⟩

/-- Auxiliary for `removeParens`: drop up to the first `c`, reporting
whether it was found. -/
def dropToChar (c : Char) : List Char → Option (List Char)
  | [] => none
  | x :: rest => if x == c then some rest else dropToChar c rest

/-- `replace(/\([^)]*\)/g, '')`: delete every parenthesised run; an
opening parenthesis with no later closing one is kept, as in JS. -/
def removeParensAux : Nat → List Char → List Char
  | 0, l => l
  | _, [] => []
  | fuel + 1, c :: rest =>
    if c == '(' then
      match dropToChar ')' rest with
      | some after => removeParensAux fuel after
      | none => c :: removeParensAux fuel rest
    else c :: removeParensAux fuel rest

def removeParens (t : String) : String :=
  ⟨removeParensAux (t.data.length + 1) t.data⟩

/-- `s.match(/^\d+$/)` is non-null: nonempty and all decimal digits. -/
def isAllDigits (t : String) : Bool :=
  !t.data.isEmpty && t.data.all isDigit10

/-- `substring(0, n)`. -/
def substrTo (n : Nat) (t : String) : String := ⟨t.data.take n⟩

/-- `a.includes(b)` on strings. -/
def containsSub (pat : List Char) : List Char → Bool
  | [] => pat.isEmpty
  | c :: rest => pat.isPrefixOf (c :: rest) || containsSub pat rest

def jsIncludes (sub t : String) : Bool := containsSub sub.data t.data

/-- `split(' ')` with a single-space string separator. -/
def splitSpaceAux : List Char → List Char → List String
  | [], acc => [⟨acc.reverse⟩]
  | c :: rest, acc =>
    if c == ' ' then ⟨acc.reverse⟩ :: splitSpaceAux rest []
    else splitSpaceAux rest (c :: acc)

def splitSpace (t : String) : List String := splitSpaceAux t.data []

/-- `array.join(sep)`. -/
def joinWith (sep : String) : List String → String
  | [] => ""
  | [x] => x
  | x :: rest => x ++ sep ++ joinWith sep rest

/-! ## Regex construction helpers -/

def rlit (c : Char) : RE := .cls false [.lit c]

/-- A literal string, one `cls` per character. -/
def rstr (s : String) : RE := (s.data.map rlit).foldr RE.cat RE.eps

/-- Left-priority alternation of a list (ECMAScript `a|b|c`). -/
def alts : List RE → RE
  | [] => .cls false []
  | [r] => r
  | r :: rs => .alt r (alts rs)

def seq (rs : List RE) : RE := rs.foldr RE.cat RE.eps

def star (r : RE) : RE := .rep r 0 none false
def lstar (r : RE) : RE := .rep r 0 none true
def plus (r : RE) : RE := .rep r 1 none false
def ropt (r : RE) : RE := .rep r 0 (some 1) false
def reps (r : RE) (lo : Nat) (hi : Option Nat) : RE := .rep r lo hi false

def iU : CItem := .rng 'A' 'Z'
def iL : CItem := .rng 'a' 'z'
def iD : CItem := .rng '0' '9'
def sItems : List CItem := jsSpaceChars.map CItem.lit
def clsU : RE := .cls false [iU]
def clsL : RE := .cls false [iL]
def clsD : RE := .cls false [iD]
def clsS : RE := .cls false sItems

/-! ## The source patterns of `extractDataFromText`

Each definition transcribes one regex literal of the source, node by
node, preserving alternative order and quantifier kinds. -/

/-- Shared body of the first two name patterns:
`[A-Z][a-z]+(?:\s+[A-Z][a-z]*)*\s+[A-Z][a-z]+`. -/
def nameBody : RE :=
  seq [clsU, plus clsL, star (seq [plus clsS, clsU, star clsL]), plus clsS, clsU, plus clsL]

/-- `/^([A-Z][a-z]+(?:\s+[A-Z][a-z]*)*\s+[A-Z][a-z]+)/m` -/
def nameRe1 : RE := .cat .bol (.grp 1 nameBody)

/-- `/Name:?\s*([A-Z][a-z]+(?:\s+[A-Z][a-z]*)*\s+[A-Z][a-z]+)/i` -/
def nameRe2 : RE := seq [rstr "Name", ropt (rlit ':'), star clsS, .grp 1 nameBody]

/-- `/([A-Z][A-Z\s]+)(?=\s*[\n\r])/m` -/
def nameRe3 : RE :=
  .cat (.grp 1 (.cat clsU (plus (.cls false (iU :: sItems)))))
       (.look (.cat (star clsS) (.cls false [.lit '\n', .lit '\r'])))

/-- `/[a-zA-Z0-9._%+-]+@[a-zA-Z0-9.-]+\.[a-zA-Z]{2,}/` -/
def emailRe : RE :=
  seq [plus (.cls false [iL, iU, iD, .lit '.', .lit '_', .lit '%', .lit '+', .lit '-']),
       rlit '@',
       plus (.cls false [iL, iU, iD, .lit '.', .lit '-']),
       rlit '.',
       reps (.cls false [iL, iU]) 2 none]

/-- The class `[-.\s]`. -/
def sepC : RE := .cls false (.lit '-' :: .lit '.' :: sItems)

/-- `/(?:\+?1[-.\s]?)?\(?([0-9]{3})\)?[-.\s]?([0-9]{3})[-.\s]?([0-9]{4})/` -/
def phoneRe1 : RE :=
  seq [ropt (seq [ropt (rlit '+'), rlit '1', ropt sepC]),
       ropt (rlit '('), .grp 1 (reps clsD 3 (some 3)), ropt (rlit ')'), ropt sepC,
       .grp 2 (reps clsD 3 (some 3)), ropt sepC, .grp 3 (reps clsD 4 (some 4))]

/-- `/(?:\+[0-9]{1,3}[-.\s]?)?(?:\([0-9]{1,4}\)[-.\s]?)?[0-9]{1,4}[-.\s]?[0-9]{1,4}[-.\s]?[0-9]{1,9}/` -/
def phoneRe2 : RE :=
  seq [ropt (seq [rlit '+', reps clsD 1 (some 3), ropt sepC]),
       ropt (seq [rlit '(', reps clsD 1 (some 4), rlit ')', ropt sepC]),
       reps clsD 1 (some 4), ropt sepC, reps clsD 1 (some 4), ropt sepC,
       reps clsD 1 (some 9)]

/-- `[A-Z][a-z]+`, one capitalised word. -/
def wordUL : RE := seq [clsU, plus clsL]

/-- `/([A-Z][a-z]+,?\s+[A-Z]{2,3}(?:\s+[0-9]{5})?)/g` -/
def locRe1 : RE :=
  .grp 1 (seq [clsU, plus clsL, ropt (rlit ','), plus clsS, reps clsU 2 (some 3),
               ropt (seq [plus clsS, reps clsD 5 (some 5)])])

/-- `/([A-Z][a-z]+(?:\s+[A-Z][a-z]+)*,?\s+[A-Z][a-z]+(?:\s+[A-Z][a-z]+)*)/g` -/
def locRe2 : RE :=
  .grp 1 (seq [wordUL, star (.cat (plus clsS) wordUL), ropt (rlit ','), plus clsS,
               wordUL, star (.cat (plus clsS) wordUL)])

/-- `/Location:?\s*([A-Z][a-z]+(?:[\s,]+[A-Z][a-z]+)*)/i` -/
def locRe3 : RE :=
  seq [rstr "Location", ropt (rlit ':'), star clsS,
       .grp 1 (.cat wordUL (star (.cat (plus (.cls false (sItems ++ [.lit ',']))) wordUL)))]

/-- Role pattern 1:
`/(Senior|Lead|Principal|Staff)?\s*(Software|Web|Mobile|Frontend|Backend|Full[- ]?Stack|DevOps|Data|Machine Learning|AI)?\s*(Engineer|Developer|Programmer|Architect|Scientist)/i` -/
def roleRe1 : RE :=
  seq [ropt (.grp 1 (alts [rstr "Senior", rstr "Lead", rstr "Principal", rstr "Staff"])),
       star clsS,
       ropt (.grp 2 (alts [rstr "Software", rstr "Web", rstr "Mobile", rstr "Frontend",
            rstr "Backend",
            seq [rstr "Full", ropt (.cls false [.lit '-', .lit ' ']), rstr "Stack"],
            rstr "DevOps", rstr "Data", rstr "Machine Learning", rstr "AI"])),
       star clsS,
       .grp 3 (alts [rstr "Engineer", rstr "Developer", rstr "Programmer", rstr "Architect",
            rstr "Scientist"])]

/-- `/(Project|Product|Engineering|Technical|Program)?\s*Manager/i` -/
def roleRe2 : RE :=
  seq [ropt (.grp 1 (alts [rstr "Project", rstr "Product", rstr "Engineering",
        rstr "Technical", rstr "Program"])),
       star clsS, rstr "Manager"]

/-- `/(Business|Data|Systems|Financial|Research)?\s*Analyst/i` -/
def roleRe3 : RE :=
  seq [ropt (.grp 1 (alts [rstr "Business", rstr "Data", rstr "Systems",
        rstr "Financial", rstr "Research"])),
       star clsS, rstr "Analyst"]

/-- `/(UX|UI|Graphic|Web|Product)?\s*Designer/i` -/
def roleRe4 : RE :=
  seq [ropt (.grp 1 (alts [rstr "UX", rstr "UI", rstr "Graphic", rstr "Web",
        rstr "Product"])),
       star clsS, rstr "Designer"]

/-- `/(IT|Technical|Management|Strategy|Marketing|Sales)?\s*Consultant/i` -/
def roleRe5 : RE :=
  seq [ropt (.grp 1 (alts [rstr "IT", rstr "Technical", rstr "Management",
        rstr "Strategy", rstr "Marketing", rstr "Sales"])),
       star clsS, rstr "Consultant"]

/-- `/(Chief|Head)\s+of\s+[A-Z][a-z]+/i` -/
def roleRe6 : RE :=
  seq [.grp 1 (alts [rstr "Chief", rstr "Head"]), plus clsS, rstr "of", plus clsS,
       clsU, plus clsL]

/-- `/Director\s+of\s+[A-Z][a-z]+/i` -/
def roleRe7 : RE :=
  seq [rstr "Director", plus clsS, rstr "of", plus clsS, clsU, plus clsL]

/-- The class `[:\s]`. -/
def colS : RE := .cls false (.lit ':' :: sItems)

/-- The shared tail `[:\s]*\n?(.*?)(?=\n\s*[A-Z\s]{2,}[:\n]|$)` of the
all-caps section patterns. -/
def sectionTail : RE :=
  seq [star colS, ropt (rlit '\n'), .grp 1 (lstar .dot),
       .look (.alt (seq [rlit '\n', star clsS, reps (.cls false (iU :: sItems)) 2 none,
                         .cls false [.lit ':', .lit '\n']])
                   .eol)]

/-- The shared tail `[:\s]+(.*?)(?=\n\s*[A-Z][a-z]*[:\s]|$)` of the
label-style patterns. -/
def labelTail : RE :=
  seq [plus colS, .grp 1 (lstar .dot),
       .look (.alt (seq [rlit '\n', star clsS, clsU, star clsL, colS]) .eol)]

/-- `/(?:SKILLS|TECHNICAL\s+SKILLS|CORE\s+COMPETENCIES|TECHNOLOGIES|PROGRAMMING\s+LANGUAGES)[:\s]*\n?(.*?)(?=\n\s*[A-Z\s]{2,}[:\n]|$)/is` -/
def skillsRe1 : RE :=
  .cat (alts [rstr "SKILLS",
              seq [rstr "TECHNICAL", plus clsS, rstr "SKILLS"],
              seq [rstr "CORE", plus clsS, rstr "COMPETENCIES"],
              rstr "TECHNOLOGIES",
              seq [rstr "PROGRAMMING", plus clsS, rstr "LANGUAGES"]])
       sectionTail

/-- `/Skills[:\s]+(.*?)(?=\n\s*[A-Z][a-z]*[:\s]|$)/is` -/
def skillsRe2 : RE := .cat (rstr "Skills") labelTail

/-- `/(?:EDUCATION|ACADEMIC\s+BACKGROUND|QUALIFICATIONS)[:\s]*\n?(.*?)(?=\n\s*[A-Z\s]{2,}[:\n]|$)/is` -/
def eduRe1 : RE :=
  .cat (alts [rstr "EDUCATION",
              seq [rstr "ACADEMIC", plus clsS, rstr "BACKGROUND"],
              rstr "QUALIFICATIONS"])
       sectionTail

/-- The class `[^.\n]`. -/
def notDotNl : RE := .cls true [.lit '.', .lit '\n']

/-- `/(Bachelor|Master|PhD|Doctorate|Associate|Certificate)[^.\n]*(?:University|College|Institute|School)[^.\n]*/gi` -/
def eduRe2 : RE :=
  seq [.grp 1 (alts [rstr "Bachelor", rstr "Master", rstr "PhD", rstr "Doctorate",
        rstr "Associate", rstr "Certificate"]),
       star notDotNl,
       alts [rstr "University", rstr "College", rstr "Institute", rstr "School"],
       star notDotNl]

/-- `/(B\.?S\.?|M\.?S\.?|Ph\.?D\.?|MBA)[^.\n]*(?:in\s+)?[A-Z][a-z\s]*/gi` -/
def eduRe3 : RE :=
  seq [.grp 1 (alts [seq [rlit 'B', ropt (rlit '.'), rlit 'S', ropt (rlit '.')],
                     seq [rlit 'M', ropt (rlit '.'), rlit 'S', ropt (rlit '.')],
                     seq [rstr "Ph", ropt (rlit '.'), rlit 'D', ropt (rlit '.')],
                     rstr "MBA"]),
       star notDotNl,
       ropt (.cat (rstr "in") (plus clsS)),
       clsU, star (.cls false (iL :: sItems))]

/-- `/(?:WORK\s+EXPERIENCE|PROFESSIONAL\s+EXPERIENCE|EXPERIENCE|EMPLOYMENT\s+HISTORY)[:\s]*\n?(.*?)(?=\n\s*[A-Z\s]{2,}[:\n]|$)/is` -/
def expRe1 : RE :=
  .cat (alts [seq [rstr "WORK", plus clsS, rstr "EXPERIENCE"],
              seq [rstr "PROFESSIONAL", plus clsS, rstr "EXPERIENCE"],
              rstr "EXPERIENCE",
              seq [rstr "EMPLOYMENT", plus clsS, rstr "HISTORY"]])
       sectionTail

/-- `/Experience[:\s]+(.*?)(?=\n\s*[A-Z][a-z]*[:\s]|$)/is` -/
def expRe2 : RE := .cat (rstr "Experience") labelTail

/-- `/(?:ABOUT|SUMMARY|PROFILE|OBJECTIVE|PROFESSIONAL\s+SUMMARY|CAREER\s+SUMMARY)[:\s]*\n?(.*?)(?=\n\s*[A-Z\s]{2,}[:\n]|$)/is` -/
def aboutRe1 : RE :=
  .cat (alts [rstr "ABOUT", rstr "SUMMARY", rstr "PROFILE", rstr "OBJECTIVE",
              seq [rstr "PROFESSIONAL", plus clsS, rstr "SUMMARY"],
              seq [rstr "CAREER", plus clsS, rstr "SUMMARY"]])
       sectionTail

/-- `/Summary[:\s]+(.*?)(?=\n\s*[A-Z][a-z]*[:\s]|$)/is` -/
def aboutRe2 : RE := .cat (rstr "Summary") labelTail

/-- `/(?:LANGUAGES|LANGUAGE\s+SKILLS)[:\s]*\n?(.*?)(?=\n\s*[A-Z\s]{2,}[:\n]|$)/is` -/
def langRe1 : RE :=
  .cat (alts [rstr "LANGUAGES", seq [rstr "LANGUAGE", plus clsS, rstr "SKILLS"]])
       sectionTail

/-- `/Languages[:\s]+(.*?)(?=\n\s*[A-Z][a-z]*[:\s]|$)/is` -/
def langRe2 : RE := .cat (rstr "Languages") labelTail

/-! ## Category cascades

Each category of `extractDataFromText` loops over its ordered pattern
list and breaks at the first pattern whose result it accepts;
`firstSome` is that loop. -/

def firstSome {α : Type} (fs : List (String → Option α)) (t : String) : Option α :=
  match fs with
  | [] => none
  | f :: rest =>
    match f t with
    | some v => some v
    | none => firstSome rest t

/-- One name rule: on a match, `fullName = match[1].replace(/\s+/g, ' ').trim()`. -/
def nameFrom (fl : RFlags) (re : RE) (t : String) : Option String :=
  (jsMatch1 fl re t).map (fun p => jsTrim (collapseWS (p.2.getD "")))

def nameRules : List (String → Option String) :=
  [nameFrom { ml := true } nameRe1, nameFrom { ci := true } nameRe2,
   nameFrom { ml := true } nameRe3]

def nameValue (t : String) : Option String := firstSome nameRules t

/-- `data.email = emailMatch[0]` (single pattern, no flags). -/
def emailValue (t : String) : Option String :=
  (jsMatch1 {} emailRe t).map (fun p => p.1)

/-- One phone rule: `data.phone = phoneMatch[0]` (no flags). -/
def phoneFrom (re : RE) (t : String) : Option String :=
  (jsMatch1 {} re t).map (fun p => p.1)

def phoneRules : List (String → Option String) := [phoneFrom phoneRe1, phoneFrom phoneRe2]

def phoneValue (t : String) : Option String := firstSome phoneRules t

/-- A g-flagged location rule: `text.match` returns the array of whole
matches, and the source reads `locationMatch[1] || locationMatch[0]`,
i.e. the second whole match when present and truthy, else the first. -/
def locFromAll (re : RE) (t : String) : Option String :=
  (jsMatchAll {} re t).map (fun ms =>
    match ms.get? 1 with
    | some v => if v == "" then ms.headD "" else v
    | none => ms.headD "")

/-- The third location rule (no g flag): `locationMatch[1] || locationMatch[0]`
reads capture group 1 with the whole match as fallback. -/
def locFrom3 (t : String) : Option String :=
  (jsMatch1 { ci := true } locRe3 t).map (fun p =>
    match p.2 with
    | some g => if g == "" then p.1 else g
    | none => p.1)

def locationRules : List (String → Option String) :=
  [locFromAll locRe1, locFromAll locRe2, locFrom3]

def locationValue (t : String) : Option String := firstSome locationRules t

/-- One role rule: `data.currentRole = roleMatch[0].trim()`. -/
def roleFrom (re : RE) (t : String) : Option String :=
  (jsMatch1 { ci := true } re t).map (fun p => jsTrim p.1)

def roleRules : List (String → Option String) :=
  [roleFrom roleRe1, roleFrom roleRe2, roleFrom roleRe3, roleFrom roleRe4,
   roleFrom roleRe5, roleFrom roleRe6, roleFrom roleRe7]

def roleValue (t : String) : Option String := firstSome roleRules t

/-- The split class `[,\n•·]` and the strip class `[-•·]`. -/
def splitChars : List Char := [',', '\n', '•', '·']

def stripChars : List Char := ['-', '•', '·']

/-- The filter of the skills pipeline:
`skill.length > 1 && !skill.match(/^\d+$/)`. -/
def skillsKeep (sk : String) : Bool :=
  decide (1 < sk.length) && !(isAllDigits sk)

/-- `.split(/[,\n•·]/).map(s => s.replace(/[-•·]/g, '').trim())`: the
cleaned tokens of a captured skills section. -/
def cleanTokens (sec : String) : List String :=
  (splitCharSet splitChars sec).map (fun sk => jsTrim (removeChars stripChars sk))

/-- The skills token pipeline: clean, filter, `.slice(0, 20)`. -/
def tokenizeSkills (sec : String) : List String :=
  ((cleanTokens sec).filter skillsKeep).take 20

/-- The text captured by one skills pattern (`skillsSection[1]`). -/
def skillsCapture (re : RE) (t : String) : Option String :=
  (jsMatch1 { ci := true, dotAll := true } re t).map (fun p => p.2.getD "")

/-- One skills rule: accepted only when the token list is nonempty
(`if (skills.length > 0)`). -/
def skillsFrom (re : RE) (t : String) : Option (List String) :=
  (skillsCapture re t).bind (fun sec =>
    let skills := tokenizeSkills sec
    if 0 < skills.length then some skills else none)

def skillsRules : List (String → Option (List String)) :=
  [skillsFrom skillsRe1, skillsFrom skillsRe2]

def skillsValue (t : String) : Option (List String) := firstSome skillsRules t

/-- Education rule 1 (no g flag):
`match[1] ? match[1].trim() : match[0].trim()`. -/
def eduV1 (t : String) : Option String :=
  (jsMatch1 { ci := true, dotAll := true } eduRe1 t).map (fun p =>
    match p.2 with
    | some g => if g == "" then jsTrim p.1 else jsTrim g
    | none => jsTrim p.1)

/-- Education rules 2 and 3 (g flag): `educationMatch.join('; ')`. -/
def eduV2 (t : String) : Option String :=
  (jsMatchAll { ci := true } eduRe2 t).map (joinWith "; ")

def eduV3 (t : String) : Option String :=
  (jsMatchAll { ci := true } eduRe3 t).map (joinWith "; ")

/-- The education loop: a matching pattern assigns `data.education`
first and only then tests `data.education.length > 5` to break, so an
unaccepted value persists and can be overwritten by a later pattern. -/
def eduGo : Option String → List (Option String) → Option String
  | cur, [] => cur
  | cur, none :: rest => eduGo cur rest
  | _, some v :: rest => if 5 < v.length then some v else eduGo (some v) rest

def educationValue (t : String) : Option String := eduGo none [eduV1 t, eduV2 t, eduV3 t]

/-- One experience rule: `match[1].trim().substring(0, 500)`, accepted
only when longer than 10 characters. -/
def expFrom (re : RE) (t : String) : Option String :=
  (jsMatch1 { ci := true, dotAll := true } re t).bind (fun p =>
    let e := substrTo 500 (jsTrim (p.2.getD ""))
    if 10 < e.length then some e else none)

def experienceRules : List (String → Option String) := [expFrom expRe1, expFrom expRe2]

def experienceValue (t : String) : Option String := firstSome experienceRules t

/-- One about rule: `match[1].trim().substring(0, 300)`, accepted only
when longer than 10 characters. -/
def aboutFrom (re : RE) (t : String) : Option String :=
  (jsMatch1 { ci := true, dotAll := true } re t).bind (fun p =>
    let a := substrTo 300 (jsTrim (p.2.getD ""))
    if 10 < a.length then some a else none)

def aboutRules : List (String → Option String) := [aboutFrom aboutRe1, aboutFrom aboutRe2]

def aboutValue (t : String) : Option String := firstSome aboutRules t

/-- The languages token pipeline: strip `[-•·]`, strip parenthesised
proficiency annotations, trim, keep tokens longer than 1, cap at 10. -/
def tokenizeLanguages (sec : String) : List String :=
  (((splitCharSet splitChars sec).map
      (fun l => jsTrim (removeParens (removeChars stripChars l)))).filter
    (fun l => decide (1 < l.length))).take 10

/-- One languages rule: accepted only when the token list is nonempty. -/
def langFrom (re : RE) (t : String) : Option (List String) :=
  (jsMatch1 { ci := true, dotAll := true } re t).bind (fun p =>
    let langs := tokenizeLanguages (p.2.getD "")
    if 0 < langs.length then some langs else none)

def languagesRules : List (String → Option (List String)) :=
  [langFrom langRe1, langFrom langRe2]

def languagesValue (t : String) : Option (List String) := firstSome languagesRules t

/-! ## The data model -/

inductive Status where
  | success
  | error
  | processing
deriving DecidableEq

/-- The `ExtractedData` record of the source. -/
structure ExtractedData where
  filename : String
  firstName : Option String := none
  lastName : Option String := none
  email : Option String := none
  phone : Option String := none
  location : Option String := none
  currentRole : Option String := none
  skills : Option (List String) := none
  education : Option String := none
  experience : Option String := none
  about : Option String := none
  languages : Option (List String) := none
  status : Status
  errorMessage : Option String := none
deriving DecidableEq

/-- The ten extraction toggles. -/
structure ExtractionSettings where
  extractName : Bool
  extractEmail : Bool
  extractPhone : Bool
  extractLocation : Bool
  extractRole : Bool
  extractSkills : Bool
  extractEducation : Bool
  extractExperience : Bool
  extractAbout : Bool
  extractLanguages : Bool
deriving DecidableEq

def allOn : ExtractionSettings :=
  ⟨true, true, true, true, true, true, true, true, true, true⟩

def allOff : ExtractionSettings :=
  ⟨false, false, false, false, false, false, false, false, false, false⟩

/-- `nameParts[0]` of `fullName.split(' ')`. -/
def firstTok (full : String) : String := (splitSpace full).headD ""

/-- `nameParts.slice(1).join(' ')`. -/
def restToks (full : String) : String := joinWith " " (splitSpace full).tail

/-- `extractDataFromText` of the source.  The source mutates one record
through ten independently-guarded category blocks that write disjoint
fields, so a record literal over the category cascades is an equivalent
rendering.  Every operation in the model is total, hence the source's
`catch` branch (which would set `status = 'error'` with the exception
message) is unreachable here. -/
def extractDataFromText (settings : ExtractionSettings) (text filename : String) :
    ExtractedData :=
  let nm := if settings.extractName then nameValue text else none
  { filename := filename
    firstName := nm.map firstTok
    lastName := nm.map restToks
    email := if settings.extractEmail then emailValue text else none
    phone := if settings.extractPhone then phoneValue text else none
    location := if settings.extractLocation then locationValue text else none
    currentRole := if settings.extractRole then roleValue text else none
    skills := if settings.extractSkills then skillsValue text else none
    education := if settings.extractEducation then educationValue text else none
    experience := if settings.extractExperience then experienceValue text else none
    about := if settings.extractAbout then aboutValue text else none
    languages := if settings.extractLanguages then languagesValue text else none
    status := .success
    errorMessage := none }

/-! ## The orchestrator-level quality gate (processFiles lines 1015-1032) -/

/-- JavaScript truthiness of an optional string field: defined and
nonempty. -/
def truthyS : Option String → Bool
  | some s => !(s == "")
  | none => false

/-- `const hasBasicData = extractedData.firstName || extractedData.email || extractedData.phone`. -/
def hasBasicData (d : ExtractedData) : Bool :=
  truthyS d.firstName || truthyS d.email || truthyS d.phone

/-- `const hasDetailedData = extractedData.skills?.length || extractedData.currentRole || extractedData.experience`. -/
def hasDetailedData (d : ExtractedData) : Bool :=
  (match d.skills with
   | some l => !(l.length == 0)
   | none => false) || truthyS d.currentRole || truthyS d.experience

def noCVDataMsg : String :=
  "No recognizable CV data found - check if this is a valid resume PDF"

/-- The post-extraction quality gate: demote an exception-free record to
an error when neither basic nor detailed data was populated. -/
def qualityGate (d : ExtractedData) : ExtractedData :=
  if !hasBasicData d && !hasDetailedData d then
    { d with status := .error, errorMessage := some noCVDataMsg }
  else d

/-! ## The batch orchestrator (processFiles) -/

deriving instance DecidableEq for Except

/-- One input file as the orchestrator sees it: name, declared size and
MIME type, plus two oracles for the environment-dependent part of the
per-file pipeline: `decodeOutcome` is the settled result of
`extractTextFromPDF` (extracted text, or the rejection message after
retries/inner timeouts), and `timedOut` says whether the outer
size-based `Promise.race` timeout fired before the pipeline finished.
The synchronous validation rejections settle the race immediately, so
they are checked before the timeout oracle. -/
structure SourceFile where
  name : String
  size : Nat
  mime : String
  decodeOutcome : Except String String
  timedOut : Bool
deriving DecidableEq

def emptyFileMsg : String := "File is empty (0 bytes)"

/-- `(file.size / 1024 / 1024).toFixed(1)`: megabytes rounded to one
decimal place. -/
def mbToFixed1 (size : Nat) : String :=
  let tenths := (size * 10 + 524288) / 1048576
  toString (tenths / 10) ++ "." ++ toString (tenths % 10)

def tooLargeMsg (size : Nat) : String :=
  "File too large (" ++ mbToFixed1 size ++ "MB > 50MB limit)"

def invalidTypeMsg (mime : String) : String :=
  "Invalid file type: " ++ mime ++ " (expected PDF)"

/-- `Math.min(90000, Math.max(30000, file.size / 1024 / 1024 * 5000))`,
in milliseconds, over exact rationals. -/
def timeoutMs (size : Nat) : ℚ :=
  min 90000 (max 30000 ((size : ℚ) / 1024 / 1024 * 5000))

/-- The outer timeout rejection text (the interpolated seconds value is
abstracted away; no claim depends on it). -/
def timeoutMsg : String :=
  "File processing timeout - file may be very large or complex"

def noTextMsg : String :=
  "No text content extracted - PDF may be image-based or corrupted"

def tooShortMsg (len : Nat) : String :=
  "Extracted text too short (" ++ toString len ++ " chars) - likely not a valid CV"

/-- An error record as built in the catch branch of the per-file loop. -/
def errRecord (filename msg : String) : ExtractedData :=
  { filename := filename, status := .error, errorMessage := some msg }

/-- The per-file pipeline of `processFiles`: pre-flight validation, text
extraction (raced against the outer timeout), the short-text checks,
field extraction and the quality gate; every failure is caught and
becomes an error record. -/
def perFile (settings : ExtractionSettings) (f : SourceFile) : ExtractedData :=
  if f.size = 0 then errRecord f.name emptyFileMsg
  else if 50 * 1024 * 1024 < f.size then errRecord f.name (tooLargeMsg f.size)
  else if !(jsIncludes "pdf" f.mime) then errRecord f.name (invalidTypeMsg f.mime)
  else if f.timedOut then errRecord f.name timeoutMsg
  else
    match f.decodeOutcome with
    | .error msg => errRecord f.name msg
    | .ok text =>
      if (jsTrim text).length = 0 then errRecord f.name noTextMsg
      else if text.length < 50 then errRecord f.name (tooShortMsg text.length)
      else qualityGate (extractDataFromText settings text f.name)

/-- The `ProcessingStats` record of the source. -/
structure BatchStats where
  total : Nat
  processed : Nat
  successful : Nat
  failed : Nat
  currentFile : Option String := none
deriving DecidableEq

/-- The per-file stats update.  On the non-throwing path the source adds
`(status === 'success' ? 1 : 0)` to `successful` and
`(status === 'error' ? 1 : 0)` to `failed`; the catch branch adds 1 to
`failed` only, which coincides because every caught failure record has
`status = 'error'`. -/
def stepStats (st : BatchStats) (idx : Nat) (r : ExtractedData) : BatchStats :=
  { st with
    processed := idx + 1
    successful := st.successful + (if r.status = .success then 1 else 0)
    failed := st.failed + (if r.status = .error then 1 else 0) }

/-- The body of the `for` loop of `processFiles`: push one record per
file and update the stats, then clear `currentFile` after the last
file. -/
def batchGo (settings : ExtractionSettings) :
    List SourceFile → Nat → List ExtractedData → BatchStats →
    List ExtractedData × BatchStats
  | [], _, acc, stats => (acc, { stats with currentFile := none })
  | f :: rest, idx, acc, stats =>
    let stats1 := { stats with currentFile := some f.name }
    let r := perFile settings f
    batchGo settings rest (idx + 1) (acc ++ [r]) (stepStats stats1 idx r)

/-- `processFiles`: reset the stats to `{total: N, 0, 0, 0}` and run the
sequential per-file loop. -/
def processFiles (settings : ExtractionSettings) (files : List SourceFile) :
    List ExtractedData × BatchStats :=
  batchGo settings files 0 []
    { total := files.length, processed := 0, successful := 0, failed := 0,
      currentFile := none }

/-! ## Helper lemmas -/

lemma extract_status (settings : ExtractionSettings) (text fn : String) :
    (extractDataFromText settings text fn).status = Status.success := rfl

lemma extract_errorMessage (settings : ExtractionSettings) (text fn : String) :
    (extractDataFromText settings text fn).errorMessage = none := rfl

lemma extract_filename (settings : ExtractionSettings) (text fn : String) :
    (extractDataFromText settings text fn).filename = fn := rfl

lemma qualityGate_filename (d : ExtractedData) :
    (qualityGate d).filename = d.filename := by
  unfold qualityGate; split <;> rfl

lemma qualityGate_status (d : ExtractedData) :
    (qualityGate d).status = Status.error ∨ (qualityGate d).status = d.status := by
  unfold qualityGate; split
  · exact Or.inl rfl
  · exact Or.inr rfl

lemma qualityGate_extract_status_ne (settings : ExtractionSettings) (text fn : String) :
    (qualityGate (extractDataFromText settings text fn)).status ≠ Status.processing := by
  rcases qualityGate_status (extractDataFromText settings text fn) with h | h <;> rw [h]
  · simp
  · rw [extract_status]; simp

lemma perFile_filename (settings : ExtractionSettings) (f : SourceFile) :
    (perFile settings f).filename = f.name := by
  rcases f with ⟨name, size, mime, dec, tOut⟩
  rcases dec with msg | text <;>
    (simp only [perFile]
     split_ifs <;>
       first
         | rfl
         | (rw [qualityGate_filename]; rfl))

lemma perFile_status_ne_processing (settings : ExtractionSettings) (f : SourceFile) :
    (perFile settings f).status ≠ Status.processing := by
  rcases f with ⟨name, size, mime, dec, tOut⟩
  rcases dec with msg | text <;>
    (simp only [perFile]
     split_ifs <;>
       first
         | exact fun hc => qualityGate_extract_status_ne _ _ _ hc
         | simp [errRecord])

/-- Exactly one of the success / error counters fires for every record
the pipeline can produce (the `processing` state never leaves the UI). -/
lemma filter_status_partition :
    ∀ l : List ExtractedData, (∀ r ∈ l, r.status ≠ Status.processing) →
      (l.filter (fun r => decide (r.status = Status.success))).length +
        (l.filter (fun r => decide (r.status = Status.error))).length = l.length := by
  intro l
  induction l with
  | nil => intro _; rfl
  | cons r rest ih =>
    intro h
    have hr := h r (List.mem_cons_self r rest)
    have hrest := ih (fun x hx => h x (List.mem_cons_of_mem r hx))
    cases hst : r.status with
    | success => simp [List.filter_cons, hst]; omega
    | error => simp [List.filter_cons, hst]; omega
    | processing => exact absurd hst hr

lemma batchGo_fst (settings : ExtractionSettings) :
    ∀ (fs : List SourceFile) (idx : Nat) (acc : List ExtractedData) (stats : BatchStats),
      (batchGo settings fs idx acc stats).1 = acc ++ fs.map (perFile settings) := by
  intro fs
  induction fs with
  | nil => intro idx acc stats; simp [batchGo]
  | cons f rest ih =>
    intro idx acc stats
    simp [batchGo, ih]

lemma batchGo_snd (settings : ExtractionSettings) :
    ∀ (fs : List SourceFile) (idx : Nat) (acc : List ExtractedData) (stats : BatchStats),
      stats.processed = idx →
      stats.successful = (acc.filter (fun r => decide (r.status = Status.success))).length →
      stats.failed = (acc.filter (fun r => decide (r.status = Status.error))).length →
      (batchGo settings fs idx acc stats).2.processed = idx + fs.length ∧
      (batchGo settings fs idx acc stats).2.successful =
        (((acc ++ fs.map (perFile settings))).filter
          (fun r => decide (r.status = Status.success))).length ∧
      (batchGo settings fs idx acc stats).2.failed =
        (((acc ++ fs.map (perFile settings))).filter
          (fun r => decide (r.status = Status.error))).length := by
  intro fs
  induction fs with
  | nil =>
    intro idx acc stats h1 h2 h3
    simp [batchGo, h1, h2, h3]
  | cons f rest ih =>
    intro idx acc stats h1 h2 h3
    have step := ih (idx + 1) (acc ++ [perFile settings f])
      (stepStats { stats with currentFile := some f.name } idx (perFile settings f))
      (by simp [stepStats])
      (by simp [stepStats, List.filter_append, h2, List.filter_cons]
          split <;> simp)
      (by simp [stepStats, List.filter_append, h3, List.filter_cons]
          split <;> simp)
    simpa [batchGo, Nat.add_assoc, Nat.add_comm, Nat.add_left_comm] using step

/-- Order sensitivity of a rule cascade: when every rule before position
`i` yields nothing and rule `i` yields an accepted value, that value is
the cascade's output; the rules after `i` are irrelevant. -/
lemma firstSome_eq_of_earlier_none {α : Type} :
    ∀ (fs : List (String → Option α)) (t : String) (i : Nat) (h : i < fs.length) (v : α),
      (∀ j (hj : j < i), fs.get ⟨j, Nat.lt_trans hj h⟩ t = none) →
      fs.get ⟨i, h⟩ t = some v →
      firstSome fs t = some v := by
  intro fs
  induction fs with
  | nil => intro t i h v _ _; exact absurd h (Nat.not_lt_zero i)
  | cons f rest ih =>
    intro t i h v hnone hmatch
    cases i with
    | zero =>
      simp only [List.get] at hmatch
      simp [firstSome, hmatch]
    | succ n =>
      have hf : f t = none := hnone 0 (Nat.succ_pos n)
      have hrest := ih t n (Nat.lt_of_succ_lt_succ h) v
        (fun j hj => hnone (j + 1) (Nat.succ_lt_succ hj)) hmatch
      simp [firstSome, hf, hrest]

/-- The education loop with all rules before position `i` failing to
match: rule `i`'s value is the output as soon as it passes the length
check. -/
lemma eduGo_earlier_none :
    ∀ (vs : List (Option String)) (i : Nat) (h : i < vs.length) (v : String),
      (∀ j (hj : j < i), vs.get ⟨j, Nat.lt_trans hj h⟩ = none) →
      vs.get ⟨i, h⟩ = some v → 5 < v.length →
      eduGo none vs = some v := by
  intro vs
  induction vs with
  | nil => intro i h v _ _ _; exact absurd h (Nat.not_lt_zero i)
  | cons x rest ih =>
    intro i h v hnone hmatch hlen
    cases i with
    | zero =>
      simp only [List.get] at hmatch
      subst hmatch
      simp [eduGo, hlen]
    | succ n =>
      have hx : x = none := hnone 0 (Nat.succ_pos n)
      subst hx
      have hrest := ih n (Nat.lt_of_succ_lt_succ h) v
        (fun j hj => hnone (j + 1) (Nat.succ_lt_succ hj)) hmatch hlen
      simpa [eduGo] using hrest

/-! ## Claim theorems -/

/-- C1: for every input list of N source files, `processFiles` produces a
result list of exactly N records, one per input file and in input order
(the i-th record is the per-file result of the i-th file, carrying its
filename), regardless of how each file fares. -/
theorem batch_one_record_per_file (settings : ExtractionSettings) (files : List SourceFile) :
    (processFiles settings files).1 = files.map (perFile settings) ∧
    ((processFiles settings files).1).length = files.length ∧
    ((processFiles settings files).1).map (fun r => r.filename) =
      files.map (fun f => f.name) := by
  have h : (processFiles settings files).1 = files.map (perFile settings) := by
    simpa [processFiles] using
      batchGo_fst settings files 0 []
        { total := files.length, processed := 0, successful := 0, failed := 0,
          currentFile := none }
  refine ⟨h, ?_, ?_⟩
  · rw [h]; simp
  · rw [h, List.map_map]
    apply List.map_congr_left
    intro f _
    exact perFile_filename settings f

/-- C2: after the batch completes, `processed = N` and
`successful + failed = N`, where `successful` counts exactly the
records with success status and `failed` exactly those with error
status. -/
theorem batch_stats_partition (settings : ExtractionSettings) (files : List SourceFile) :
    (processFiles settings files).2.processed = files.length ∧
    (processFiles settings files).2.successful + (processFiles settings files).2.failed =
      files.length ∧
    (processFiles settings files).2.successful =
      (((processFiles settings files).1).filter
        (fun r => decide (r.status = Status.success))).length ∧
    (processFiles settings files).2.failed =
      (((processFiles settings files).1).filter
        (fun r => decide (r.status = Status.error))).length := by
  have hfst : (processFiles settings files).1 = files.map (perFile settings) := by
    simpa [processFiles] using
      batchGo_fst settings files 0 []
        { total := files.length, processed := 0, successful := 0, failed := 0,
          currentFile := none }
  have hsnd := batchGo_snd settings files 0 []
    { total := files.length, processed := 0, successful := 0, failed := 0,
      currentFile := none } rfl rfl rfl
  obtain ⟨hp, hs, hf⟩ := hsnd
  have hp2 : (processFiles settings files).2.processed = files.length := by
    simpa [processFiles] using hp
  have hs2 : (processFiles settings files).2.successful =
      ((files.map (perFile settings)).filter
        (fun r => decide (r.status = Status.success))).length := by
    simpa [processFiles] using hs
  have hf2 : (processFiles settings files).2.failed =
      ((files.map (perFile settings)).filter
        (fun r => decide (r.status = Status.error))).length := by
    simpa [processFiles] using hf
  have hnp : ∀ r ∈ files.map (perFile settings), r.status ≠ Status.processing := by
    intro r hr
    obtain ⟨f, _, rfl⟩ := List.mem_map.mp hr
    exact perFile_status_ne_processing settings f
  have hpart := filter_status_partition (files.map (perFile settings)) hnp
  refine ⟨hp2, ?_, ?_, ?_⟩
  · rw [hs2, hf2, hpart, List.length_map]
  · rw [hs2, hfst]
  · rw [hf2, hfst]

/-- C4: the field extractor is deterministic — identical text, filename
and settings give identical records, in particular identical status and
error message. -/
theorem extractor_deterministic (t1 t2 f1 f2 : String) (s1 s2 : ExtractionSettings)
    (ht : t1 = t2) (hf : f1 = f2) (hs : s1 = s2) :
    extractDataFromText s1 t1 f1 = extractDataFromText s2 t2 f2 ∧
    (extractDataFromText s1 t1 f1).status = (extractDataFromText s2 t2 f2).status ∧
    (extractDataFromText s1 t1 f1).errorMessage =
      (extractDataFromText s2 t2 f2).errorMessage := by
  subst ht; subst hf; subst hs
  exact ⟨rfl, rfl, rfl⟩

theorem extractor_deterministic_witness :
    extractDataFromText allOn "Jane Smith" "cv.pdf" =
      extractDataFromText allOn "Jane Smith" "cv.pdf" :=
  (extractor_deterministic "Jane Smith" "Jane Smith" "cv.pdf" "cv.pdf" allOn allOn
    rfl rfl rfl).1

/-- C5: a category whose toggle is false leaves the corresponding output
field absent, whatever the text contains. -/
theorem disabled_toggle_absent (settings : ExtractionSettings) (text fn : String) :
    (settings.extractName = false →
        (extractDataFromText settings text fn).firstName = none ∧
        (extractDataFromText settings text fn).lastName = none) ∧
    (settings.extractEmail = false → (extractDataFromText settings text fn).email = none) ∧
    (settings.extractPhone = false → (extractDataFromText settings text fn).phone = none) ∧
    (settings.extractLocation = false →
        (extractDataFromText settings text fn).location = none) ∧
    (settings.extractRole = false →
        (extractDataFromText settings text fn).currentRole = none) ∧
    (settings.extractSkills = false → (extractDataFromText settings text fn).skills = none) ∧
    (settings.extractEducation = false →
        (extractDataFromText settings text fn).education = none) ∧
    (settings.extractExperience = false →
        (extractDataFromText settings text fn).experience = none) ∧
    (settings.extractAbout = false → (extractDataFromText settings text fn).about = none) ∧
    (settings.extractLanguages = false →
        (extractDataFromText settings text fn).languages = none) := by
  refine ⟨?_, ?_, ?_, ?_, ?_, ?_, ?_, ?_, ?_, ?_⟩ <;> intro h <;>
    simp [extractDataFromText, h]

theorem disabled_toggle_absent_witness :
    (extractDataFromText allOff "jane.smith@example.com" "cv.pdf").email = none :=
  (disabled_toggle_absent allOff "jane.smith@example.com" "cv.pdf").2.1 rfl

/-- C8: a zero-byte file yields an error record with the empty-file
message, independently of the decode oracle (no decode is consulted),
and the batch still yields one record per file around it. -/
theorem zero_byte_rejected (settings : ExtractionSettings) (f : SourceFile)
    (h : f.size = 0) :
    (perFile settings f).status = Status.error ∧
    (perFile settings f).errorMessage = some emptyFileMsg ∧
    (∀ d1 d2 : Except String String, ∀ b1 b2 : Bool,
        perFile settings { f with decodeOutcome := d1, timedOut := b1 } =
          perFile settings { f with decodeOutcome := d2, timedOut := b2 }) ∧
    (∀ pre post : List SourceFile,
        ((processFiles settings (pre ++ f :: post)).1).length =
          pre.length + 1 + post.length) := by
  refine ⟨?_, ?_, ?_, ?_⟩
  · simp [perFile, h, errRecord]
  · simp [perFile, h, errRecord]
  · intro d1 d2 b1 b2
    simp [perFile, h]
  · intro pre post
    have h1 : (processFiles settings (pre ++ f :: post)).1 =
        (pre ++ f :: post).map (perFile settings) := by
      simpa [processFiles] using
        batchGo_fst settings (pre ++ f :: post) 0 []
          { total := (pre ++ f :: post).length, processed := 0, successful := 0,
            failed := 0, currentFile := none }
    rw [h1]
    simp
    omega

theorem zero_byte_rejected_witness :
    (perFile allOn
      { name := "empty.pdf", size := 0, mime := "application/pdf",
        decodeOutcome := Except.error "never consulted", timedOut := false }).status =
      Status.error :=
  (zero_byte_rejected allOn
    { name := "empty.pdf", size := 0, mime := "application/pdf",
      decodeOutcome := Except.error "never consulted", timedOut := false } rfl).1

/-- C9: the size-based outer timeout is at least 30s, at most 90s, and
monotonically non-decreasing in the declared file size. -/
theorem timeout_band_monotone (size : Nat) :
    30000 ≤ timeoutMs size ∧ timeoutMs size ≤ 90000 ∧
    ∀ size2 : Nat, size ≤ size2 → timeoutMs size ≤ timeoutMs size2 := by
  refine ⟨?_, ?_, ?_⟩
  · unfold timeoutMs
    exact le_min (by norm_num) (le_max_left _ _)
  · unfold timeoutMs
    exact min_le_left _ _
  · intro size2 hle
    unfold timeoutMs
    have hc : (size : ℚ) ≤ (size2 : ℚ) := by exact_mod_cast hle
    apply min_le_min (le_refl _)
    apply max_le_max (le_refl _)
    gcongr

theorem timeout_band_monotone_witness :
    30000 ≤ timeoutMs 0 ∧ timeoutMs 0 ≤ 90000 ∧ timeoutMs 0 ≤ timeoutMs 1048576 :=
  ⟨(timeout_band_monotone 0).1, (timeout_band_monotone 0).2.1,
   (timeout_band_monotone 0).2.2 1048576 (by norm_num)⟩

/-- C10: firstName and lastName are populated together; on a match the
first is the first space-separated token of the matched name and the
second the remaining tokens joined by a space, so a one-token name gives
`lastName = some ""`. -/
theorem name_pair_invariant (settings : ExtractionSettings) (text fn : String) :
    ((extractDataFromText settings text fn).firstName.isSome ↔
        (extractDataFromText settings text fn).lastName.isSome) ∧
    ∀ full : String,
      (if settings.extractName then nameValue text else none) = some full →
      (extractDataFromText settings text fn).firstName = some (firstTok full) ∧
      (extractDataFromText settings text fn).lastName = some (restToks full) ∧
      ((splitSpace full).length = 1 →
        (extractDataFromText settings text fn).lastName = some "") := by
  constructor
  · cases hnm : (if settings.extractName then nameValue text else none) <;>
      simp [extractDataFromText, hnm]
  · intro full hfull
    refine ⟨?_, ?_, ?_⟩
    · simp [extractDataFromText, hfull]
    · simp [extractDataFromText, hfull]
    · intro hlen
      have htail : (splitSpace full).tail = [] := by
        rcases List.length_eq_one.mp hlen with ⟨a, ha⟩
        rw [ha]
        rfl
      simp [extractDataFromText, hfull, restToks, htail, joinWith]

theorem name_pair_invariant_witness :
    (extractDataFromText allOn "AB\nx" "cv.pdf").firstName = some "AB" ∧
    (extractDataFromText allOn "AB\nx" "cv.pdf").lastName = some "" := by
  have hnm : (if allOn.extractName then nameValue "AB\nx" else none) = some "AB" := by
    decide
  have h := (name_pair_invariant allOn "AB\nx" "cv.pdf").2 "AB" hnm
  refine ⟨?_, h.2.2 (by decide)⟩
  rw [h.1]
  decide

/-- C3: when field extraction raises no exception (which the total model
guarantees), the quality gate demotes the record to an error with the
no-recognizable-CV-data message exactly when neither basic data
(firstName/email/phone) nor detailed data (skills/currentRole/experience)
was populated; otherwise it leaves the successful record untouched. -/
theorem quality_gate_condition (settings : ExtractionSettings) (text fn : String) :
    (hasBasicData (extractDataFromText settings text fn) = false ∧
        hasDetailedData (extractDataFromText settings text fn) = false →
        (qualityGate (extractDataFromText settings text fn)).status = Status.error ∧
        (qualityGate (extractDataFromText settings text fn)).errorMessage =
          some noCVDataMsg) ∧
    (hasBasicData (extractDataFromText settings text fn) = true ∨
        hasDetailedData (extractDataFromText settings text fn) = true →
        qualityGate (extractDataFromText settings text fn) =
          extractDataFromText settings text fn ∧
        (qualityGate (extractDataFromText settings text fn)).status = Status.success) := by
  constructor
  · rintro ⟨hb, hd⟩
    constructor <;> simp [qualityGate, hb, hd]
  · intro hor
    have heq : qualityGate (extractDataFromText settings text fn) =
        extractDataFromText settings text fn := by
      rcases hor with h | h <;> simp [qualityGate, h]
    exact ⟨heq, by rw [heq, extract_status]⟩

theorem quality_gate_condition_witness :
    hasBasicData (extractDataFromText allOn "lorem ipsum dolor sit amet" "cv.pdf") =
      false ∧
    hasDetailedData (extractDataFromText allOn "lorem ipsum dolor sit amet" "cv.pdf") =
      false ∧
    (qualityGate (extractDataFromText allOn "lorem ipsum dolor sit amet" "cv.pdf")).status =
      Status.error ∧
    (qualityGate
        (extractDataFromText allOn "lorem ipsum dolor sit amet" "cv.pdf")).errorMessage =
      some noCVDataMsg := by
  have hb : hasBasicData (extractDataFromText allOn "lorem ipsum dolor sit amet" "cv.pdf") =
      false := by decide
  have hd : hasDetailedData
      (extractDataFromText allOn "lorem ipsum dolor sit amet" "cv.pdf") = false := by decide
  have h := (quality_gate_condition allOn "lorem ipsum dolor sit amet" "cv.pdf").1 ⟨hb, hd⟩
  exact ⟨hb, hd, h.1, h.2⟩

/-- C6 (amended): within every category the rules are tried in order and
the first rule that yields an accepted result determines the output —
for name, email, phone, location and role every match is accepted; a
skills/languages rule is accepted when its token list is nonempty, an
experience/about rule when its trimmed, truncated capture is long
enough; in the education category this holds whenever the earlier rules
do not match at all and the deciding rule's value passes the length
check (a matching education rule whose value fails the check leaves a
provisional value that a later matching rule overwrites). -/
theorem cascade_order_contract :
    (∀ (t : String) (i : Nat) (h : i < nameRules.length) (v : String),
        (∀ j (hj : j < i), nameRules.get ⟨j, Nat.lt_trans hj h⟩ t = none) →
        nameRules.get ⟨i, h⟩ t = some v → nameValue t = some v) ∧
    (∀ (t v : String),
        (jsMatch1 {} emailRe t).map (fun p => p.1) = some v → emailValue t = some v) ∧
    (∀ (t : String) (i : Nat) (h : i < phoneRules.length) (v : String),
        (∀ j (hj : j < i), phoneRules.get ⟨j, Nat.lt_trans hj h⟩ t = none) →
        phoneRules.get ⟨i, h⟩ t = some v → phoneValue t = some v) ∧
    (∀ (t : String) (i : Nat) (h : i < locationRules.length) (v : String),
        (∀ j (hj : j < i), locationRules.get ⟨j, Nat.lt_trans hj h⟩ t = none) →
        locationRules.get ⟨i, h⟩ t = some v → locationValue t = some v) ∧
    (∀ (t : String) (i : Nat) (h : i < roleRules.length) (v : String),
        (∀ j (hj : j < i), roleRules.get ⟨j, Nat.lt_trans hj h⟩ t = none) →
        roleRules.get ⟨i, h⟩ t = some v → roleValue t = some v) ∧
    (∀ (t : String) (i : Nat) (h : i < skillsRules.length) (v : List String),
        (∀ j (hj : j < i), skillsRules.get ⟨j, Nat.lt_trans hj h⟩ t = none) →
        skillsRules.get ⟨i, h⟩ t = some v → skillsValue t = some v) ∧
    (∀ (t : String) (i : Nat) (h : i < experienceRules.length) (v : String),
        (∀ j (hj : j < i), experienceRules.get ⟨j, Nat.lt_trans hj h⟩ t = none) →
        experienceRules.get ⟨i, h⟩ t = some v → experienceValue t = some v) ∧
    (∀ (t : String) (i : Nat) (h : i < aboutRules.length) (v : String),
        (∀ j (hj : j < i), aboutRules.get ⟨j, Nat.lt_trans hj h⟩ t = none) →
        aboutRules.get ⟨i, h⟩ t = some v → aboutValue t = some v) ∧
    (∀ (t : String) (i : Nat) (h : i < languagesRules.length) (v : List String),
        (∀ j (hj : j < i), languagesRules.get ⟨j, Nat.lt_trans hj h⟩ t = none) →
        languagesRules.get ⟨i, h⟩ t = some v → languagesValue t = some v) ∧
    (∀ (t : String) (i : Nat) (h : i < [eduV1 t, eduV2 t, eduV3 t].length) (v : String),
        (∀ j (hj : j < i), [eduV1 t, eduV2 t, eduV3 t].get ⟨j, Nat.lt_trans hj h⟩ = none) →
        [eduV1 t, eduV2 t, eduV3 t].get ⟨i, h⟩ = some v → 5 < v.length →
        educationValue t = some v) :=
  ⟨fun t i h v hnone hm => firstSome_eq_of_earlier_none nameRules t i h v hnone hm,
   fun _ _ hv => hv,
   fun t i h v hnone hm => firstSome_eq_of_earlier_none phoneRules t i h v hnone hm,
   fun t i h v hnone hm => firstSome_eq_of_earlier_none locationRules t i h v hnone hm,
   fun t i h v hnone hm => firstSome_eq_of_earlier_none roleRules t i h v hnone hm,
   fun t i h v hnone hm => firstSome_eq_of_earlier_none skillsRules t i h v hnone hm,
   fun t i h v hnone hm => firstSome_eq_of_earlier_none experienceRules t i h v hnone hm,
   fun t i h v hnone hm => firstSome_eq_of_earlier_none aboutRules t i h v hnone hm,
   fun t i h v hnone hm => firstSome_eq_of_earlier_none languagesRules t i h v hnone hm,
   fun t i h v hnone hm hlen =>
     eduGo_earlier_none [eduV1 t, eduV2 t, eduV3 t] i h v hnone hm hlen⟩

theorem cascade_order_contract_witness : nameValue "Jane Smith" = some "Jane Smith" := by
  have h0 : nameRules.get ⟨0, by decide⟩ "Jane Smith" = some "Jane Smith" := by decide
  exact cascade_order_contract.1 "Jane Smith" 0 (by decide) "Jane Smith"
    (fun j hj => absurd hj (Nat.not_lt_zero j)) h0

/-- C6 counterexample: on `"MBA Z\nEDUCATION\nBS"` the first education
rule matches (value `"BS"`), yet the third rule's value is the category
output — the first matching rule does not determine the output and a
later rule is consulted after an earlier one has matched. -/
theorem education_overwrite_counterexample :
    eduV1 "MBA Z\nEDUCATION\nBS" = some "BS" ∧
    eduV2 "MBA Z\nEDUCATION\nBS" = none ∧
    educationValue "MBA Z\nEDUCATION\nBS" = some "MBA Z\nEDUCATION\nBS" ∧
    ¬ educationValue "MBA Z\nEDUCATION\nBS" = some "BS" := by
  have h3 : educationValue "MBA Z\nEDUCATION\nBS" = some "MBA Z\nEDUCATION\nBS" := by
    decide
  refine ⟨by decide, by decide, h3, ?_⟩
  rw [h3]
  decide

/-- C7 (amended): the skills list is obtained from the captured section
by splitting on comma/newline/bullet, stripping bullet and dash
characters, trimming, keeping exactly the tokens of length at least 2
that are not purely numeric, and capping at 20; tokens that survive keep
their order, and when at most 20 tokens qualify every qualifying token
is kept.  Every populated skills field arises this way from one of the
two skills patterns. -/
theorem skills_tokenization_contract :
    (∀ sec : String,
        (∀ tok ∈ tokenizeSkills sec,
            2 ≤ tok.length ∧ isAllDigits tok = false ∧ tok ∈ cleanTokens sec) ∧
        (tokenizeSkills sec).length ≤ 20 ∧
        (tokenizeSkills sec).Sublist (cleanTokens sec) ∧
        (((cleanTokens sec).filter skillsKeep).length ≤ 20 →
            ∀ tok ∈ cleanTokens sec, skillsKeep tok = true → tok ∈ tokenizeSkills sec)) ∧
    (∀ (settings : ExtractionSettings) (text fn : String) (l : List String),
        (extractDataFromText settings text fn).skills = some l →
        ∃ sec : String,
          (skillsCapture skillsRe1 text = some sec ∨
            skillsCapture skillsRe2 text = some sec) ∧
          l = tokenizeSkills sec ∧ l ≠ []) := by
  constructor
  · intro sec
    refine ⟨?_, ?_, ?_, ?_⟩
    · intro tok htok
      have h1 : tok ∈ (cleanTokens sec).filter skillsKeep := List.mem_of_mem_take htok
      have h2 := List.mem_filter.mp h1
      have hk := h2.2
      simp only [skillsKeep, Bool.and_eq_true, decide_eq_true_eq, Bool.not_eq_true'] at hk
      exact ⟨hk.1, hk.2, h2.1⟩
    · exact List.length_take_le _ _
    · exact List.Sublist.trans (List.take_sublist _ _) (List.filter_sublist _)
    · intro hle tok htok hkeep
      unfold tokenizeSkills
      rw [List.take_of_length_le hle]
      exact List.mem_filter.mpr ⟨htok, hkeep⟩
  · intro settings text fn l hl
    have hval : skillsValue text = some l := by
      by_cases hset : settings.extractSkills = true
      · simpa [extractDataFromText, hset] using hl
      · simp [extractDataFromText, hset] at hl
    have hfromEq : ∀ re : RE, ∀ v : List String, skillsFrom re text = some v →
        ∃ sec : String, skillsCapture re text = some sec ∧ v = tokenizeSkills sec ∧
          v ≠ [] := by
      intro re v hv
      cases hc : skillsCapture re text with
      | none => rw [skillsFrom, hc] at hv; exact absurd hv (by simp)
      | some sec =>
        rw [skillsFrom, hc] at hv
        simp only [Option.bind_some] at hv
        by_cases hpos : 0 < (tokenizeSkills sec).length
        · refine ⟨sec, rfl, ?_, ?_⟩
          · simp [hpos] at hv
            exact hv.symm
          · simp [hpos] at hv
            rw [← hv]
            exact List.length_pos.mp hpos
        · simp [hpos] at hv
    cases h1 : skillsFrom skillsRe1 text with
    | some v =>
      have hsv : skillsValue text = some v := by
        simp [skillsValue, skillsRules, firstSome, h1]
      have hlv : l = v := by
        rw [hval] at hsv
        exact Option.some_inj.mp hsv
      subst hlv
      obtain ⟨sec, hc, hv, hne⟩ := hfromEq skillsRe1 l h1
      exact ⟨sec, Or.inl hc, hv, hne⟩
    | none =>
      have hsv : skillsValue text = skillsFrom skillsRe2 text := by
        cases h2 : skillsFrom skillsRe2 text <;>
          simp [skillsValue, skillsRules, firstSome, h1, h2]
      have h2 : skillsFrom skillsRe2 text = some l := by rw [← hsv, hval]
      obtain ⟨sec, hc, hv, hne⟩ := hfromEq skillsRe2 l h2
      exact ⟨sec, Or.inr hc, hv, hne⟩

theorem skills_tokenization_contract_witness :
    ∃ sec : String,
      (skillsCapture skillsRe1 "SKILLS\nPython, Go, SQL\nEDUCATION\nBS CS" = some sec ∨
        skillsCapture skillsRe2 "SKILLS\nPython, Go, SQL\nEDUCATION\nBS CS" = some sec) ∧
      ["Python", "Go", "SQL"] = tokenizeSkills sec ∧
      (["Python", "Go", "SQL"] : List String) ≠ [] :=
  skills_tokenization_contract.2 allOn "SKILLS\nPython, Go, SQL\nEDUCATION\nBS CS"
    "cv.pdf" ["Python", "Go", "SQL"] (by decide)

/-- C7 counterexample: in `"SKILLS\nC, Go"` the captured section is
`"C, Go"`, whose cleaned token `"C"` is neither purely numeric nor
empty, far below the 20-entry cap, yet the extracted skills list is
`["Go"]` — the token is discarded by the source's `length > 1` filter,
against the claim that every non-numeric nonempty token is kept. -/
theorem skills_single_char_dropped :
    skillsCapture skillsRe1 "SKILLS\nC, Go" = some "C, Go" ∧
    "C" ∈ cleanTokens "C, Go" ∧
    ("C" : String) ≠ "" ∧
    isAllDigits "C" = false ∧
    (extractDataFromText allOn "SKILLS\nC, Go" "cv.pdf").skills = some ["Go"] ∧
    ¬ "C" ∈ tokenizeSkills "C, Go" := by
  refine ⟨by decide, by decide, by decide, by decide, by decide, by decide⟩

end CVParse
